import Mathlib

/-!
Verification development for the Arvalox accounts-receivable core.

The definitions below are a shallow embedding of:
  * `src/backend/app/services/payment_allocation_service.py`
    (`PaymentAllocationService`),
  * `src/backend/app/services/aging_report_service.py`
    (`AgingReportService`, invoice-detail portion),
  * the pydantic validators of `src/backend/app/schemas/payment.py`
    (`PaymentAllocation`, `PaymentAllocationCreate`), and
  * the table constraints of `src/backend/app/models/payment.py`.

Modelling conventions:
  * Money values are exact two-decimal-place decimals in the source
    (`Decimal` / `Numeric(15, 2)`); they are represented as an integer
    number of cents, which is exact for the `+`, `-`, `min` and order
    operations the services use.
  * Calendar dates are day numbers (`Int`); Python's
    `(a - b).days` on dates is plain integer subtraction.
  * The database session is a `Ledger` value holding the invoice and
    payment rows; SQLAlchemy queries become list filters that keep the
    table (insertion) order of rows, and `ORDER BY` becomes a stable
    insertion sort.  Row mutation (`invoice.paid_amount += x`) updates
    the row with the matching primary key.
  * A raised `ValueError` (or Python runtime error) aborts the request
    before `commit`, so nothing is persisted; operations therefore
    return `Except AllocError (new state, result)`, and an `.error`
    outcome carries no state change.
-/

namespace Arvalox

/-- Money as an exact count of cents (the source uses 2-decimal-place decimals). -/
abbrev Money := Int

/-- Calendar dates as whole-day numbers; date subtraction is integer subtraction. -/
abbrev Day := Int

/-- Invoice status values of `models/invoice.py`. -/
inductive InvoiceStatus
  | draft
  | sent
  | paid
  | overdue
  | cancelled
deriving DecidableEq

/-- A row of the `invoices` table (`models/invoice.py`), restricted to the
columns the allocation and aging services read or write.  `id` is the primary
key, so it is unique across the whole table. -/
structure Invoice where
  id : Nat
  organizationId : Nat
  customerId : Nat
  invoiceNumber : String
  invoiceDate : Day
  dueDate : Day
  totalAmount : Money
  paidAmount : Money
  status : InvoiceStatus
deriving DecidableEq

/-- A row of the `payments` table (`models/payment.py`).  `invoiceId = none`
models a SQL NULL invoice reference (the service's credit/overpayment rows). -/
structure Payment where
  organizationId : Nat
  invoiceId : Option Nat
  userId : Nat
  paymentDate : Day
  amount : Money
  paymentMethod : String
  referenceNumber : Option String
  notes : Option String
  status : String
deriving DecidableEq

/-- Schema `PaymentAllocation` of `schemas/payment.py`. -/
structure PaymentAllocation where
  invoiceId : Nat
  allocatedAmount : Money
deriving DecidableEq

/-- Schema `PaymentAllocationCreate` of `schemas/payment.py`. -/
structure PaymentAllocationCreate where
  paymentDate : Day
  amount : Money
  paymentMethod : String
  referenceNumber : Option String
  notes : Option String
  allocations : List PaymentAllocation
deriving DecidableEq

/-- Pydantic validation of `PaymentAllocationCreate` (`schemas/payment.py`):
`amount > 0`, at least one allocation, every `allocated_amount > 0`, and the
total allocated amount does not exceed the payment amount (the validator only
rejects a sum strictly greater than `amount`). -/
def PaymentAllocationCreate.schemaValid (pd : PaymentAllocationCreate) : Bool :=
  decide (0 < pd.amount) && !pd.allocations.isEmpty &&
    pd.allocations.all (fun a => decide (0 < a.allocatedAmount)) &&
    decide ((pd.allocations.map (·.allocatedAmount)).sum ≤ pd.amount)

/-- The ledger snapshot the service session sees: the organization-spanning
`invoices` and `payments` tables, in row (insertion) order. -/
structure Ledger where
  invoices : List Invoice
  payments : List Payment
deriving DecidableEq

/-- Errors raised by the allocation service.  The source raises `ValueError`
with distinct messages; following the spec's taxonomy they are classified as
`notFound` ("One or more invoices not found"), `conflict` ("Allocation
errors: ..."), and `noOutstanding` ("No outstanding invoices found for
allocation").  `typeError` models the Python `TypeError` raised by
`get_allocation_suggestions` when it compares a date with a `Decimal`, and
`runtimeError` models the `IndexError`/`StopIteration` of branches that are
unreachable for schema-valid input. -/
inductive AllocError
  | notFound
  | conflict (msgs : List String)
  | noOutstanding
  | typeError
  | runtimeError
deriving DecidableEq

/-- Python `f"{x}"` applied to an optional string: `None` prints as `"None"`. -/
def pyShowOptStr : Option String → String
  | none => "None"
  | some s => s

/-- Python `x or y` for an optional string `x`: `None` and `""` are falsy. -/
def pyOrElse (x : Option String) (y : String) : String :=
  match x with
  | none => y
  | some s => if s = "" then y else s

/-- Python truthiness of the `customer_id` argument (`if customer_id:`):
`None` and `0` are falsy. -/
def customerFilterActive : Option Nat → Bool
  | none => false
  | some c => c != 0

/-- Outstanding balance of an invoice: `total_amount - paid_amount`. -/
def Invoice.outstanding (inv : Invoice) : Money :=
  inv.totalAmount - inv.paidAmount

/-- Embedding of `PaymentAllocationService._get_invoices`: select the
invoices of the organization whose id is in `invoiceIds` (a SQL `IN` query;
each matching row is returned once, in table order). -/
def getInvoices (orgId : Nat) (invoiceIds : List Nat) (ledger : Ledger) :
    List Invoice :=
  ledger.invoices.filter
    (fun inv => inv.organizationId == orgId && invoiceIds.contains inv.id)

/-- Embedding of `PaymentAllocationService._validate_allocations`: for each
allocation, look its invoice up among the fetched rows and record an error
message when the invoice is missing or the allocated amount exceeds its
outstanding balance.  Each allocation is checked against the invoice's
balance independently. -/
def validateAllocations (invoices : List Invoice) :
    List PaymentAllocation → List String
  | [] => []
  | a :: rest =>
    match invoices.find? (fun inv => inv.id == a.invoiceId) with
    | none =>
      ("Invoice " ++ toString a.invoiceId ++ " not found") ::
        validateAllocations invoices rest
    | some inv =>
      if inv.totalAmount - inv.paidAmount < a.allocatedAmount then
        ("Allocation amount exceeds outstanding balance for invoice " ++
            inv.invoiceNumber) :: validateAllocations invoices rest
      else
        validateAllocations invoices rest

/-- Row mutation `invoice.paid_amount += amt` applied to the table row with
primary key `invId`. -/
def bumpPaid (invId : Nat) (amt : Money) (invs : List Invoice) : List Invoice :=
  invs.map (fun inv =>
    if inv.id == invId then { inv with paidAmount := inv.paidAmount + amt }
    else inv)

/-- One entry of the `allocation_details` list built by `allocate_payment`. -/
structure AllocationDetail where
  invoiceId : Option Nat
  invoiceNumber : String
  allocatedAmount : Money
deriving DecidableEq

/-- Embedding of the `for allocation in payment_data.allocations[1:]` loop of
`allocate_payment`: each remaining allocation produces one additional payment
row (with the derived reference number
`f"{payment_data.reference_number}-{allocation.invoice_id}"`) and increments
its invoice's paid amount.  The `find?`-fails branch corresponds to the
`StopIteration` of the source's `next(...)`, which validation makes
unreachable. -/
def processAdditional (orgId userId : Nat) (pd : PaymentAllocationCreate)
    (fetched : List Invoice) :
    List PaymentAllocation → List Invoice →
      Except AllocError (List Invoice × List Payment × List AllocationDetail)
  | [], invs => .ok (invs, [], [])
  | a :: rest, invs =>
    match fetched.find? (fun inv => inv.id == a.invoiceId) with
    | none => .error .runtimeError
    | some inv =>
      let additionalPayment : Payment :=
        { organizationId := orgId
          invoiceId := some inv.id
          userId := userId
          paymentDate := pd.paymentDate
          amount := a.allocatedAmount
          paymentMethod := pd.paymentMethod
          referenceNumber :=
            some (pyShowOptStr pd.referenceNumber ++ "-" ++ toString a.invoiceId)
          notes := some ("Allocated from payment " ++ pyShowOptStr pd.referenceNumber)
          status := "completed" }
      match processAdditional orgId userId pd fetched rest
          (bumpPaid inv.id a.allocatedAmount invs) with
      | .error e => .error e
      | .ok (invs', ps, ds) =>
        .ok (invs', additionalPayment :: ps,
          { invoiceId := some inv.id
            invoiceNumber := inv.invoiceNumber
            allocatedAmount := a.allocatedAmount } :: ds)

/-- Embedding of `PaymentAllocationService.allocate_payment`.  Note that the
source pairs `invoices[0]` (the first *fetched* row) with
`payment_data.allocations[0]` (the first *requested* allocation): the primary
payment row and the first `paid_amount` increment go to the first fetched
invoice, with the first allocation's amount. -/
def allocatePayment (orgId userId : Nat) (pd : PaymentAllocationCreate)
    (ledger : Ledger) :
    Except AllocError (Ledger × Payment × List AllocationDetail) :=
  let invoiceIds := pd.allocations.map (·.invoiceId)
  let invoices := getInvoices orgId invoiceIds ledger
  if invoices.length ≠ invoiceIds.length then .error .notFound
  else
    let allocationErrors := validateAllocations invoices pd.allocations
    if allocationErrors ≠ [] then .error (.conflict allocationErrors)
    else
      match invoices, pd.allocations with
      | primaryInvoice :: _, primaryAllocation :: restAllocations =>
        let payment : Payment :=
          { organizationId := orgId
            invoiceId := some primaryInvoice.id
            userId := userId
            paymentDate := pd.paymentDate
            amount := primaryAllocation.allocatedAmount
            paymentMethod := pd.paymentMethod
            referenceNumber := pd.referenceNumber
            notes := pd.notes
            status := "completed" }
        let afterPrimary :=
          bumpPaid primaryInvoice.id primaryAllocation.allocatedAmount
            ledger.invoices
        let primaryDetail : AllocationDetail :=
          { invoiceId := some primaryInvoice.id
            invoiceNumber := primaryInvoice.invoiceNumber
            allocatedAmount := primaryAllocation.allocatedAmount }
        match processAdditional orgId userId pd invoices restAllocations
            afterPrimary with
        | .error e => .error e
        | .ok (finalInvoices, additionalPayments, additionalDetails) =>
          .ok ({ invoices := finalInvoices
                 payments := ledger.payments ++ payment :: additionalPayments },
               payment, primaryDetail :: additionalDetails)
      | _, _ => .error .runtimeError

/-- Stable insertion of `x` into `l` with respect to the Boolean relation
`le` (ties keep `x` in front, matching a stable sort). -/
def insertSorted (le : α → α → Bool) (x : α) : List α → List α
  | [] => [x]
  | y :: ys => if le x y then x :: y :: ys else y :: insertSorted le x ys

/-- Stable insertion sort, modelling SQL `ORDER BY`. -/
def sortListBy (le : α → α → Bool) (l : List α) : List α :=
  l.foldr (insertSorted le) []

/-- Ordering `due_date` ascending. -/
def dueAsc (a b : Invoice) : Bool :=
  decide (a.dueDate ≤ b.dueDate)

/-- Embedding of `PaymentAllocationService._get_outstanding_invoices`:
invoices of the organization with `total_amount > paid_amount` and status
`sent` or `overdue`, optionally customer-filtered, ordered by `due_date`
ascending. -/
def getOutstandingInvoices (orgId : Nat) (customerId : Option Nat)
    (ledger : Ledger) : List Invoice :=
  sortListBy dueAsc (ledger.invoices.filter (fun inv =>
    inv.organizationId == orgId &&
    decide (inv.paidAmount < inv.totalAmount) &&
    (inv.status == .sent || inv.status == .overdue) &&
    (!customerFilterActive customerId || inv.customerId == customerId.getD 0)))

/-- One entry of the `allocation_details` list built by
`auto_allocate_payment` (the credit entry has `invoiceId = none` and
`isCredit = true`). -/
structure AutoAllocationDetail where
  invoiceId : Option Nat
  invoiceNumber : String
  allocatedAmount : Money
  outstandingBefore : Money
  outstandingAfter : Money
  isCredit : Bool
deriving DecidableEq

/-- Embedding of the `for invoice in outstanding_invoices` loop of
`auto_allocate_payment`: walk the ordered invoices, allocating
`min(remaining, outstanding)` to each until the remaining amount reaches
zero or the invoices are exhausted.  Returns the created payment rows, the
detail entries, the `paid_amount` increments to apply (invoice id, amount),
and the final remaining amount. -/
def autoWalk (orgId userId : Nat) (paymentDate : Day) (paymentMethod : String)
    (referenceNumber : Option String) (notes : Option String) :
    Money → List Invoice →
      List Payment × List AutoAllocationDetail × List (Nat × Money) × Money
  | remaining, [] => ([], [], [], remaining)
  | remaining, inv :: rest =>
    if remaining ≤ 0 then ([], [], [], remaining)
    else
      let outstandingBalance := inv.totalAmount - inv.paidAmount
      let allocationAmount := min remaining outstandingBalance
      let payment : Payment :=
        { organizationId := orgId
          invoiceId := some inv.id
          userId := userId
          paymentDate := paymentDate
          amount := allocationAmount
          paymentMethod := paymentMethod
          referenceNumber :=
            some (pyOrElse referenceNumber ("AUTO-" ++ inv.invoiceNumber))
          notes := some (pyOrElse notes "Auto-allocated payment")
          status := "completed" }
      let detail : AutoAllocationDetail :=
        { invoiceId := some inv.id
          invoiceNumber := inv.invoiceNumber
          allocatedAmount := allocationAmount
          outstandingBefore := outstandingBalance
          outstandingAfter := outstandingBalance - allocationAmount
          isCredit := false }
      match autoWalk orgId userId paymentDate paymentMethod referenceNumber
          notes (remaining - allocationAmount) rest with
      | (ps, ds, bumps, finalRemaining) =>
        (payment :: ps, detail :: ds, (inv.id, allocationAmount) :: bumps,
          finalRemaining)

/-- Application of a batch of `paid_amount` increments to the invoice table. -/
def applyBumps (bumps : List (Nat × Money)) (invs : List Invoice) :
    List Invoice :=
  bumps.foldl (fun acc b => bumpPaid b.1 b.2 acc) invs

/-- Embedding of `PaymentAllocationService.auto_allocate_payment`: fetch the
outstanding invoices oldest-due-first, fail when there are none, walk them
allocating greedily, and when a positive amount remains create one credit
payment row with a null invoice reference. -/
def autoAllocatePayment (orgId userId : Nat) (paymentAmount : Money)
    (paymentMethod : String) (paymentDate : Day)
    (referenceNumber : Option String) (notes : Option String)
    (customerId : Option Nat) (ledger : Ledger) :
    Except AllocError (Ledger × List Payment × List AutoAllocationDetail) :=
  let outstandingInvoices := getOutstandingInvoices orgId customerId ledger
  if outstandingInvoices.isEmpty then .error .noOutstanding
  else
    match autoWalk orgId userId paymentDate paymentMethod referenceNumber
        notes paymentAmount outstandingInvoices with
    | (ps, ds, bumps, remainingAmount) =>
      let invoices' := applyBumps bumps ledger.invoices
      if 0 < remainingAmount then
        let creditPayment : Payment :=
          { organizationId := orgId
            invoiceId := none
            userId := userId
            paymentDate := paymentDate
            amount := remainingAmount
            paymentMethod := paymentMethod
            referenceNumber :=
              some (pyOrElse referenceNumber "CREDIT" ++ "-OVERPAYMENT")
            notes := some ("Overpayment credit: $" ++ toString remainingAmount)
            status := "completed" }
        let creditDetail : AutoAllocationDetail :=
          { invoiceId := none
            invoiceNumber := "CREDIT"
            allocatedAmount := remainingAmount
            outstandingBefore := 0
            outstandingAfter := 0
            isCredit := true }
        .ok ({ invoices := invoices'
               payments := ledger.payments ++ ps ++ [creditPayment] },
             ps ++ [creditPayment], ds ++ [creditDetail])
      else
        .ok ({ invoices := invoices', payments := ledger.payments ++ ps },
             ps, ds)

/-- One entry of the list returned by `get_allocation_suggestions` (the
trailing overpayment entry has `invoiceId = none` and `isOverpayment =
true`; the source's overpayment dict carries no `days_overdue` key, modelled
here as `0`). -/
structure Suggestion where
  invoiceId : Option Nat
  invoiceNumber : String
  suggestedAllocation : Money
  daysOverdue : Int
  isOverpayment : Bool
deriving DecidableEq

/-- Python expression `invoice.due_date < payment_amount` in
`get_allocation_suggestions`: comparing a `datetime.date` with a `Decimal`
raises `TypeError` for every pair of values. -/
def pyLtDateDecimal (_d : Day) (_m : Money) : Except AllocError Bool :=
  .error .typeError

/-- Embedding of the `for invoice in outstanding_invoices` loop of
`get_allocation_suggestions`: walk the ordered invoices computing the
suggested amounts; the `days_overdue` entry of every per-invoice suggestion
evaluates `invoice.due_date < payment_amount`, so building any per-invoice
suggestion raises `TypeError`. -/
def suggestionWalk (paymentAmount : Money) :
    Money → List Invoice → Except AllocError (List Suggestion × Money)
  | remaining, [] => .ok ([], remaining)
  | remaining, inv :: rest =>
    if remaining ≤ 0 then .ok ([], remaining)
    else
      let outstandingBalance := inv.totalAmount - inv.paidAmount
      let suggestedAmount := min remaining outstandingBalance
      match pyLtDateDecimal inv.dueDate paymentAmount with
      | .error e => .error e
      | .ok lt =>
        let daysOverdue : Int :=
          if lt then inv.dueDate - paymentAmount else 0
        match suggestionWalk paymentAmount (remaining - suggestedAmount)
            rest with
        | .error e => .error e
        | .ok (rest', finalRemaining) =>
          .ok ({ invoiceId := some inv.id
                 invoiceNumber := inv.invoiceNumber
                 suggestedAllocation := suggestedAmount
                 daysOverdue := daysOverdue
                 isOverpayment := false } :: rest', finalRemaining)

/-- Embedding of `PaymentAllocationService.get_allocation_suggestions`: a
read-only walk over the same outstanding-invoice selection as
`auto_allocate_payment`, appending a trailing overpayment suggestion when a
positive amount remains. -/
def getAllocationSuggestions (orgId : Nat) (paymentAmount : Money)
    (customerId : Option Nat) (ledger : Ledger) :
    Except AllocError (List Suggestion) :=
  let outstandingInvoices := getOutstandingInvoices orgId customerId ledger
  match suggestionWalk paymentAmount paymentAmount outstandingInvoices with
  | .error e => .error e
  | .ok (suggestions, remainingAmount) =>
    if 0 < remainingAmount then
      .ok (suggestions ++
        [{ invoiceId := none
           invoiceNumber := "OVERPAYMENT"
           suggestedAllocation := remainingAmount
           daysOverdue := 0
           isOverpayment := true }])
    else .ok suggestions

/-- Aging bucket names of `AgingReportService._get_aging_bucket`. -/
inductive AgingBucket
  | current
  | days_1_30
  | days_31_60
  | days_61_90
  | days_over_90
deriving DecidableEq

/-- Embedding of `AgingReportService._get_aging_bucket`: the first matching
rule of the `if/elif` chain wins. -/
def getAgingBucket (daysOverdue : Int) : AgingBucket :=
  if daysOverdue ≤ 0 then .current
  else if daysOverdue ≤ 30 then .days_1_30
  else if daysOverdue ≤ 60 then .days_31_60
  else if daysOverdue ≤ 90 then .days_61_90
  else .days_over_90

/-- Embedding of `AgingReportService._get_outstanding_invoices`: invoices of
the organization with status `sent`, `overdue` or `paid`, restricted to
`total_amount > paid_amount` unless `includePaid`, optionally
customer-filtered, ordered by `due_date` ascending. -/
def agingOutstandingInvoices (orgId : Nat) (customerId : Option Nat)
    (includePaid : Bool) (ledger : Ledger) : List Invoice :=
  sortListBy dueAsc (ledger.invoices.filter (fun inv =>
    inv.organizationId == orgId &&
    (inv.status == .sent || inv.status == .overdue || inv.status == .paid) &&
    (includePaid || decide (inv.paidAmount < inv.totalAmount)) &&
    (!customerFilterActive customerId || inv.customerId == customerId.getD 0)))

/-- One entry of the `invoice_details` list of `generate_aging_report`. -/
structure AgingDetail where
  invoiceId : Nat
  invoiceNumber : String
  customerId : Nat
  invoiceDate : Day
  dueDate : Day
  totalAmount : Money
  paidAmount : Money
  outstandingAmount : Money
  daysOverdue : Int
  agingBucket : AgingBucket
  status : InvoiceStatus
deriving DecidableEq

/-- Ordering `days_overdue` descending (the source's
`sort(key=..., reverse=True)`). -/
def daysDesc (a b : AgingDetail) : Bool :=
  decide (b.daysOverdue ≤ a.daysOverdue)

/-- Embedding of the invoice-detail portion of
`AgingReportService.generate_aging_report`: for each selected invoice with a
positive outstanding amount (or any selected invoice when `includePaid`),
compute `days_overdue = as_of_date - due_date` and its aging bucket, and
sort the details most-overdue-first. -/
def generateAgingReport (orgId : Nat) (asOfDate : Day)
    (customerId : Option Nat) (includePaid : Bool) (ledger : Ledger) :
    List AgingDetail :=
  let invs := agingOutstandingInvoices orgId customerId includePaid ledger
  let details := invs.filterMap (fun inv =>
    let outstandingAmount := inv.totalAmount - inv.paidAmount
    if outstandingAmount ≤ 0 && !includePaid then none
    else
      let daysOverdue := asOfDate - inv.dueDate
      some { invoiceId := inv.id
             invoiceNumber := inv.invoiceNumber
             customerId := inv.customerId
             invoiceDate := inv.invoiceDate
             dueDate := inv.dueDate
             totalAmount := inv.totalAmount
             paidAmount := inv.paidAmount
             outstandingAmount := outstandingAmount
             daysOverdue := daysOverdue
             agingBucket := getAgingBucket daysOverdue
             status := inv.status })
  sortListBy daysDesc details

/-- Violation test for the unique constraint `uq_org_payment_reference` of
`models/payment.py`: two rows conflict when they share the organization and
a non-null reference number (SQL UNIQUE admits multiple NULLs). -/
def refConflict (p q : Payment) : Bool :=
  p.organizationId == q.organizationId && p.referenceNumber.isSome &&
    p.referenceNumber == q.referenceNumber

/-- Uniqueness of supplied reference numbers within an organization across a
payment table, as declared by `uq_org_payment_reference`. -/
def refsUnique : List Payment → Bool
  | [] => true
  | p :: rest => rest.all (fun q => !refConflict p q) && refsUnique rest

/-- Modelled from the spec (section 4.1, AutoAllocatePayment): "Walk the
ordered list, allocating min(remaining, invoice.outstanding) to each invoice
until remaining reaches zero or invoices are exhausted."  Input entries are
(invoice id, outstanding balance) pairs in due-date order; output entries
are (invoice id, allocated amount) pairs.  Used to compare the code's walk
with the spec's wording. -/
def specGreedyWalk : Money → List (Nat × Money) → List (Nat × Money)
  | _, [] => []
  | remaining, entry :: rest =>
    if remaining ≤ 0 then []
    else
      let alloc := min remaining entry.2
      (entry.1, alloc) :: specGreedyWalk (remaining - alloc) rest

deriving instance DecidableEq for Except

/-- Truth of `Except` success, for stating concrete evaluations. -/
def isOk : Except AllocError α → Bool
  | .ok _ => true
  | .error _ => false

/-- Ledger of a successful mutating call (the empty ledger on error). -/
def okLedger (r : Except AllocError (Ledger × α)) : Ledger :=
  match r with
  | .ok (l, _) => l
  | .error _ => { invoices := [], payments := [] }

/-- Payment rows returned by a successful `auto_allocate_payment` call. -/
def okPayments
    (r : Except AllocError (Ledger × List Payment × List AutoAllocationDetail)) :
    List Payment :=
  match r with
  | .ok (_, ps, _) => ps
  | .error _ => []

/-- Detail entries returned by a successful `auto_allocate_payment` call. -/
def okAutoDetails
    (r : Except AllocError (Ledger × List Payment × List AutoAllocationDetail)) :
    List AutoAllocationDetail :=
  match r with
  | .ok (_, _, ds) => ds
  | .error _ => []

/-- Concrete invoice A of the spec's FIFO example: organization 1, due
Jan 1 (day 0), total 100.00, unpaid, status sent. -/
def invA : Invoice := ⟨1, 1, 1, "INV-1", 0, 0, 10000, 0, .sent⟩

/-- Concrete invoice B of the spec's FIFO example: organization 1, due
Feb 1 (day 31), total 100.00, unpaid, status sent. -/
def invB : Invoice := ⟨2, 1, 1, "INV-2", 0, 31, 10000, 0, .sent⟩

/-- Ledger holding invoices A and B, in that table order, and no payments. -/
def ledgerAB : Ledger := ⟨[invA, invB], []⟩

/-- Ledger holding only invoice A. -/
def ledgerA : Ledger := ⟨[invA], []⟩

/-- Ledger with no rows at all. -/
def emptyLedger : Ledger := ⟨[], []⟩

/-- Request asking for a payment of 100.00 with a single allocation of only
40.00 to invoice 1 (accepted by the schema validator, which only rejects a
sum exceeding the amount). -/
def underAllocRequest : PaymentAllocationCreate :=
  ⟨5, 10000, "cash", some "R", none, [⟨1, 4000⟩]⟩

/-- Request allocating 50.00 to invoice 2 and then 100.00 to invoice 1:
its allocations are listed in the opposite order to the fetched rows of
`ledgerAB`. -/
def reversedAllocRequest : PaymentAllocationCreate :=
  ⟨5, 15000, "cash", some "R", none, [⟨2, 5000⟩, ⟨1, 10000⟩]⟩

/-- Request allocating 150.00 to invoice 1, whose outstanding balance in
`ledgerA` is only 100.00. -/
def exceedingRequest : PaymentAllocationCreate :=
  ⟨5, 15000, "cash", some "R", none, [⟨1, 15000⟩]⟩

/-- Request referencing invoice id 1, used by a caller scoped to
organization 2 (which owns no invoice with that id). -/
def crossTenantRequest : PaymentAllocationCreate :=
  ⟨5, 5000, "cash", none, none, [⟨1, 5000⟩]⟩

/-- Concrete result of the spec's FIFO auto-allocation example:
payment amount 150.00 against `ledgerAB`. -/
def fifoResult :
    Except AllocError (Ledger × List Payment × List AutoAllocationDetail) :=
  autoAllocatePayment 1 1 15000 "cash" 40 none none none ledgerAB

/-- Ledger for the aging boundary checks: three sent invoices of
organization 1 due on days 70, 69 and 100, all unpaid. -/
def agingLedger : Ledger :=
  ⟨[⟨1, 1, 1, "A", 0, 70, 10000, 0, .sent⟩,
    ⟨2, 1, 1, "B", 0, 69, 10000, 0, .sent⟩,
    ⟨3, 1, 1, "C", 0, 100, 10000, 0, .sent⟩], []⟩

/-- The detail row produced for invoice 1 of `agingLedger` as of day 100
(due day 70, thirty days overdue). -/
def agingDetail30 : AgingDetail :=
  ⟨1, "A", 1, 0, 70, 10000, 0, 10000, 30, .days_1_30, .sent⟩

/-! ## Helper lemmas -/

theorem mem_insertSorted {le : α → α → Bool} {x a : α} {l : List α} :
    x ∈ insertSorted le a l ↔ x = a ∨ x ∈ l := by
  induction l with
  | nil => simp [insertSorted]
  | cons y ys ih =>
    simp only [insertSorted]
    split
    · simp
    · simp [ih]
      tauto

theorem mem_sortListBy {le : α → α → Bool} {x : α} {l : List α} :
    x ∈ sortListBy le l ↔ x ∈ l := by
  induction l with
  | nil => simp [sortListBy]
  | cons y ys ih =>
    simp only [sortListBy, List.foldr_cons] at *
    rw [mem_insertSorted, ih]
    simp

theorem mem_getInvoices {orgId : Nat} {ids : List Nat} {ledger : Ledger}
    {inv : Invoice} (h : inv ∈ getInvoices orgId ids ledger) :
    inv.organizationId = orgId ∧ inv ∈ ledger.invoices ∧ inv.id ∈ ids := by
  simp only [getInvoices, List.mem_filter, Bool.and_eq_true, beq_iff_eq,
    List.contains_eq_any_beq, List.any_eq_true] at h
  obtain ⟨hmem, horg, hid⟩ := h
  obtain ⟨i, hi, hbeq⟩ := hid
  exact ⟨horg, hmem, by rw [hbeq]; exact hi⟩

theorem mem_getOutstandingInvoices {orgId : Nat} {cust : Option Nat}
    {ledger : Ledger} {inv : Invoice}
    (h : inv ∈ getOutstandingInvoices orgId cust ledger) :
    inv.organizationId = orgId ∧ inv ∈ ledger.invoices := by
  rw [getOutstandingInvoices, mem_sortListBy] at h
  simp only [List.mem_filter, Bool.and_eq_true, beq_iff_eq] at h
  exact ⟨h.2.1.1.1, h.1⟩

theorem mem_agingOutstandingInvoices {orgId : Nat} {cust : Option Nat}
    {ip : Bool} {ledger : Ledger} {inv : Invoice}
    (h : inv ∈ agingOutstandingInvoices orgId cust ip ledger) :
    inv.organizationId = orgId ∧ inv ∈ ledger.invoices := by
  rw [agingOutstandingInvoices, mem_sortListBy] at h
  simp only [List.mem_filter, Bool.and_eq_true, beq_iff_eq] at h
  exact ⟨h.2.1.1.1, h.1⟩

theorem getAgingBucket_iff (n : Int) :
    (getAgingBucket n = .current ↔ n ≤ 0) ∧
    (getAgingBucket n = .days_1_30 ↔ 1 ≤ n ∧ n ≤ 30) ∧
    (getAgingBucket n = .days_31_60 ↔ 31 ≤ n ∧ n ≤ 60) ∧
    (getAgingBucket n = .days_61_90 ↔ 61 ≤ n ∧ n ≤ 90) ∧
    (getAgingBucket n = .days_over_90 ↔ 90 < n) := by
  unfold getAgingBucket
  split_ifs <;> refine ⟨?_, ?_, ?_, ?_, ?_⟩ <;> simp <;> omega

/-! ## Claim theorems -/

/-- C7: every invoice detail of a `generate_aging_report` run carries
`daysOverdue = asOfDate - due_date` and is assigned exactly one aging bucket
by the first matching rule in order: `daysOverdue ≤ 0 → current`,
`1..30 → days_1_30`, `31..60 → days_31_60`, `61..90 → days_61_90`,
`> 90 → days_over_90`. -/
theorem aging_bucket_assignment (orgId : Nat) (asOfDate : Day)
    (customerId : Option Nat) (includePaid : Bool) (ledger : Ledger)
    (d : AgingDetail)
    (hd : d ∈ generateAgingReport orgId asOfDate customerId includePaid ledger) :
    d.daysOverdue = asOfDate - d.dueDate ∧
    d.agingBucket = getAgingBucket d.daysOverdue ∧
    (d.agingBucket = .current ↔ d.daysOverdue ≤ 0) ∧
    (d.agingBucket = .days_1_30 ↔ 1 ≤ d.daysOverdue ∧ d.daysOverdue ≤ 30) ∧
    (d.agingBucket = .days_31_60 ↔ 31 ≤ d.daysOverdue ∧ d.daysOverdue ≤ 60) ∧
    (d.agingBucket = .days_61_90 ↔ 61 ≤ d.daysOverdue ∧ d.daysOverdue ≤ 90) ∧
    (d.agingBucket = .days_over_90 ↔ 90 < d.daysOverdue) := by
  rw [generateAgingReport, mem_sortListBy, List.mem_filterMap] at hd
  obtain ⟨inv, hinv, heq⟩ := hd
  have hfields : d.daysOverdue = asOfDate - d.dueDate ∧
      d.agingBucket = getAgingBucket d.daysOverdue := by
    by_cases hc : (decide (inv.totalAmount - inv.paidAmount ≤ 0)
        && !includePaid) = true
    · simp only [hc, if_true] at heq
      exact absurd heq (by simp)
    · simp only [hc, if_false] at heq
      cases heq
      exact ⟨rfl, rfl⟩
  refine ⟨hfields.1, hfields.2, ?_, ?_, ?_, ?_, ?_⟩ <;>
    rw [hfields.2] <;>
    first
      | exact (getAgingBucket_iff d.daysOverdue).1
      | exact (getAgingBucket_iff d.daysOverdue).2.1
      | exact (getAgingBucket_iff d.daysOverdue).2.2.1
      | exact (getAgingBucket_iff d.daysOverdue).2.2.2.1
      | exact (getAgingBucket_iff d.daysOverdue).2.2.2.2

/-- Witness for C7 at a concrete snapshot: as of day 100, the invoice due on
day 70 (thirty days overdue) lands in `days_1_30`; the remaining report rows
realize the `days_31_60` and `current` boundaries. -/
theorem aging_bucket_assignment_witness :
    agingDetail30 ∈ generateAgingReport 1 100 none false agingLedger ∧
    agingDetail30.agingBucket = .days_1_30 ∧
    agingDetail30.daysOverdue = 30 ∧
    (generateAgingReport 1 100 none false agingLedger).map (·.agingBucket)
      = [.days_31_60, .days_1_30, .current] := by
  refine ⟨by decide, ?_, by decide, by decide⟩
  exact ((aging_bucket_assignment 1 100 none false agingLedger agingDetail30
    (by decide)).2.2.2.1).mpr (by decide)

/-- C10: when no outstanding invoices match the organization/customer
filter, `get_allocation_suggestions` does not raise the
no-outstanding-invoices error that `auto_allocate_payment` raises on the
same snapshot; for a positive payment amount it returns exactly one
suggestion — an overpayment entry for the full amount — and performs no
mutation (it is a pure read). -/
theorem suggestions_no_outstanding_edge (orgId userId : Nat) (P : Money)
    (paymentMethod : String) (paymentDate : Day)
    (referenceNumber notes : Option String) (cust : Option Nat)
    (ledger : Ledger) (hP : 0 < P)
    (hempty : getOutstandingInvoices orgId cust ledger = []) :
    getAllocationSuggestions orgId P cust ledger =
      .ok [{ invoiceId := none
             invoiceNumber := "OVERPAYMENT"
             suggestedAllocation := P
             daysOverdue := 0
             isOverpayment := true }] ∧
    autoAllocatePayment orgId userId P paymentMethod paymentDate
      referenceNumber notes cust ledger = .error .noOutstanding := by
  constructor
  · rw [getAllocationSuggestions, hempty]
    simp [suggestionWalk, hP]
  · rw [autoAllocatePayment, hempty]
    simp

/-- Witness for C10: a positive payment amount of 50.00 against an empty
ledger yields the single full-amount overpayment suggestion while
auto-allocation errors out. -/
theorem suggestions_no_outstanding_edge_witness :
    getAllocationSuggestions 1 5000 none emptyLedger =
      .ok [{ invoiceId := none
             invoiceNumber := "OVERPAYMENT"
             suggestedAllocation := 5000
             daysOverdue := 0
             isOverpayment := true }] ∧
    autoAllocatePayment 1 9 5000 "cash" 40 none none none emptyLedger =
      .error .noOutstanding :=
  suggestions_no_outstanding_edge 1 9 5000 "cash" 40 none none none
    emptyLedger (by decide) (by decide)

/-- C3 (code bug): `get_allocation_suggestions` evaluates
`invoice.due_date < payment_amount`, comparing a date with a `Decimal`, so
it raises `TypeError` whenever at least one outstanding invoice is walked —
instead of returning the allocation sequence that `auto_allocate_payment`
applies on the same snapshot (which here succeeds, allocating 50.00 to
invoice 1). -/
theorem allocation_suggestions_type_error_bug :
    getAllocationSuggestions 1 5000 none ledgerA = .error .typeError ∧
    isOk (autoAllocatePayment 1 1 5000 "cash" 40 none none none ledgerA)
      = true ∧
    (okAutoDetails (autoAllocatePayment 1 1 5000 "cash" 40 none none none
        ledgerA)).map (fun d => (d.invoiceId, d.allocatedAmount))
      = [(some 1, 5000)] := by
  decide

/-- C4 (code bug): `allocate_payment` pairs `invoices[0]` (the first
*fetched* row) with `allocations[0]` (the first *requested* allocation).
With invoices 1 and 2 fetched in table order and the allocations listed as
[(invoice 2, 50.00), (invoice 1, 100.00)], each allocation passes
validation, yet invoice 1 absorbs both amounts and ends with
`paid_amount = 150.00 > total_amount = 100.00`, while invoice 2 is never
credited. -/
theorem allocate_primary_mismatch_overpays_bug :
    reversedAllocRequest.schemaValid = true ∧
    isOk (allocatePayment 1 1 reversedAllocRequest ledgerAB) = true ∧
    (okLedger (allocatePayment 1 1 reversedAllocRequest ledgerAB)).invoices.map
        (fun inv => (inv.id, inv.paidAmount, inv.totalAmount))
      = [(1, 15000, 10000), (2, 0, 10000)] ∧
    ((okLedger (allocatePayment 1 1 reversedAllocRequest ledgerAB)).invoices.any
        (fun inv => decide (inv.totalAmount < inv.paidAmount))) = true := by
  decide

/-- C5 (code bug): a single `auto_allocate_payment` call with a supplied
reference number assigns that same reference number to every payment row it
creates; allocating 200.00 across the two outstanding invoices of
organization 1 produces two rows both carrying
`(organization_id, reference_number) = (1, "REF-1")`, violating the
declared unique constraint `uq_org_payment_reference`. -/
theorem auto_allocate_duplicate_reference_bug :
    isOk (autoAllocatePayment 1 1 20000 "cash" 40 (some "REF-1") none none
      ledgerAB) = true ∧
    (okPayments (autoAllocatePayment 1 1 20000 "cash" 40 (some "REF-1") none
        none ledgerAB)).map (fun p => (p.organizationId, p.referenceNumber))
      = [(1, some "REF-1"), (1, some "REF-1")] ∧
    refsUnique (okLedger (autoAllocatePayment 1 1 20000 "cash" 40
        (some "REF-1") none none ledgerAB)).payments = false := by
  decide

theorem processAdditional_sum {orgId userId : Nat}
    {pd : PaymentAllocationCreate} {fetched : List Invoice}
    {allocs : List PaymentAllocation} {invs invs' : List Invoice}
    {ps : List Payment} {ds : List AllocationDetail}
    (h : processAdditional orgId userId pd fetched allocs invs
        = .ok (invs', ps, ds)) :
    (ps.map (·.amount)).sum = (allocs.map (·.allocatedAmount)).sum := by
  induction allocs generalizing invs invs' ps ds with
  | nil =>
    simp only [processAdditional, Except.ok.injEq, Prod.mk.injEq] at h
    obtain ⟨-, rfl, -⟩ := h
    simp
  | cons a rest ih =>
    simp only [processAdditional] at h
    cases hfind : fetched.find? (fun inv => inv.id == a.invoiceId) with
    | none => simp [hfind] at h
    | some inv =>
      rw [hfind] at h
      dsimp only at h
      cases hrec : processAdditional orgId userId pd fetched rest
          (bumpPaid inv.id a.allocatedAmount invs) with
      | error e => rw [hrec] at h; cases h
      | ok triple =>
        obtain ⟨invs'', ps'', ds''⟩ := triple
        rw [hrec] at h
        simp only [Except.ok.injEq, Prod.mk.injEq] at h
        obtain ⟨-, rfl, -⟩ := h
        have := ih hrec
        simp only [List.map_cons, List.sum_cons, this]

/-- C1 counterexample: a schema-valid request with total amount 100.00 whose
single allocation is only 40.00 succeeds, and the one payment row created
carries 40.00 — the sum of created payment-row amounts (40.00) is not the
requested total amount (100.00). -/
theorem allocate_underallocation_cx :
    underAllocRequest.schemaValid = true ∧
    isOk (allocatePayment 1 1 underAllocRequest ledgerA) = true ∧
    ((okLedger (allocatePayment 1 1 underAllocRequest ledgerA)).payments.map
        (·.amount)).sum = 4000 ∧
    underAllocRequest.amount = 10000 ∧
    ¬ ((okLedger (allocatePayment 1 1 underAllocRequest ledgerA)).payments.map
        (·.amount)).sum = underAllocRequest.amount := by
  decide

/-- C1 amended: for every successful `allocate_payment` call, the sum of the
amounts of the created payment rows equals the sum of the requested
allocations' amounts — which, for schema-valid input, never exceeds (but may
be strictly less than) `payment_data.amount`. -/
theorem allocate_created_sum_eq_allocations (orgId userId : Nat)
    (pd : PaymentAllocationCreate) (ledger l' : Ledger) (p : Payment)
    (ds : List AllocationDetail)
    (h : allocatePayment orgId userId pd ledger = .ok (l', p, ds)) :
    ∃ created, l'.payments = ledger.payments ++ created ∧
      (created.map (·.amount)).sum
        = (pd.allocations.map (·.allocatedAmount)).sum ∧
      (pd.schemaValid = true → (created.map (·.amount)).sum ≤ pd.amount) := by
  have hsum : (pd.schemaValid = true →
      (pd.allocations.map (·.allocatedAmount)).sum ≤ pd.amount) := by
    intro hv
    simp only [PaymentAllocationCreate.schemaValid, Bool.and_eq_true,
      decide_eq_true_eq] at hv
    exact hv.2
  simp only [allocatePayment] at h
  split at h
  · cases h
  · split at h
    · cases h
    · split at h
      case _ primaryInvoice restInv primaryAllocation restAllocations heqInv
          heqAlloc =>
        cases hrec : processAdditional orgId userId pd
            (getInvoices orgId (pd.allocations.map (·.invoiceId)) ledger)
            restAllocations
            (bumpPaid primaryInvoice.id primaryAllocation.allocatedAmount
              ledger.invoices) with
        | error e => rw [hrec] at h; cases h
        | ok triple =>
          obtain ⟨finalInvoices, additionalPayments, additionalDetails⟩ :=
            triple
          rw [hrec] at h
          simp only [Except.ok.injEq, Prod.mk.injEq] at h
          obtain ⟨hl, hp, -⟩ := h
          have hadd := processAdditional_sum hrec
          refine ⟨p :: additionalPayments, ?_, ?_, ?_⟩
          · rw [← hl, ← hp]
          · simp only [List.map_cons, List.sum_cons, hadd, heqAlloc, ← hp]
          · intro hv
            have hle := hsum hv
            rw [heqAlloc] at hle
            simp only [List.map_cons, List.sum_cons] at hle
            simp only [List.map_cons, List.sum_cons, hadd, ← hp]
            exact hle
      · cases h

/-- Witness for the amended C1 at the counterexample input: the single
created row's amount (40.00) equals the allocation sum and stays below the
requested amount 100.00. -/
theorem allocate_created_sum_eq_allocations_witness :
    ∃ created,
      (okLedger (allocatePayment 1 1 underAllocRequest ledgerA)).payments
        = ledgerA.payments ++ created ∧
      (created.map (·.amount)).sum
        = (underAllocRequest.allocations.map (·.allocatedAmount)).sum ∧
      (underAllocRequest.schemaValid = true →
        (created.map (·.amount)).sum ≤ underAllocRequest.amount) := by
  refine allocate_created_sum_eq_allocations 1 1 underAllocRequest ledgerA
    (okLedger (allocatePayment 1 1 underAllocRequest ledgerA)) ?_ ?_ ?_
  · exact { organizationId := 1, invoiceId := some 1, userId := 1
            paymentDate := 5, amount := 4000, paymentMethod := "cash"
            referenceNumber := some "R", notes := none, status := "completed" }
  · exact [{ invoiceId := some 1, invoiceNumber := "INV-1"
             allocatedAmount := 4000 }]
  · decide

theorem validateAllocations_ne_nil {invoices : List Invoice}
    {allocations : List PaymentAllocation} {a : PaymentAllocation}
    {inv : Invoice} (ha : a ∈ allocations)
    (hfind : invoices.find? (fun i => i.id == a.invoiceId) = some inv)
    (hex : inv.totalAmount - inv.paidAmount < a.allocatedAmount) :
    validateAllocations invoices allocations ≠ [] := by
  induction allocations with
  | nil => cases ha
  | cons b rest ih =>
    simp only [validateAllocations]
    cases hb : invoices.find? (fun i => i.id == b.invoiceId) with
    | none => simp
    | some invb =>
      dsimp only
      by_cases hx : invb.totalAmount - invb.paidAmount < b.allocatedAmount
      · simp [hx]
      · rw [if_neg hx]
        rcases List.mem_cons.mp ha with rfl | hmem
        · rw [hb] at hfind
          cases hfind
          exact absurd hex hx
        · exact ih hmem

/-- C6: when some allocation of an `allocate_payment` request exceeds its
invoice's outstanding balance at read time (and the invoices resolve, so the
length check passes), the call fails with the conflict error carrying the
non-empty validation-error list — the error is raised during the
pre-mutation validation pass, before any payment row is created or any
`paid_amount` is touched, so the rolled-back transaction has zero side
effects. -/
theorem allocate_conflict_rejected (orgId userId : Nat)
    (pd : PaymentAllocationCreate) (ledger : Ledger) (a : PaymentAllocation)
    (inv : Invoice)
    (hlen : (getInvoices orgId (pd.allocations.map (·.invoiceId)) ledger).length
        = (pd.allocations.map (·.invoiceId)).length)
    (ha : a ∈ pd.allocations)
    (hfind : (getInvoices orgId (pd.allocations.map (·.invoiceId)) ledger).find?
        (fun i => i.id == a.invoiceId) = some inv)
    (hexceed : inv.totalAmount - inv.paidAmount < a.allocatedAmount) :
    ∃ msgs, msgs ≠ [] ∧
      allocatePayment orgId userId pd ledger = .error (.conflict msgs) := by
  have hne := validateAllocations_ne_nil ha hfind hexceed
  refine ⟨validateAllocations
    (getInvoices orgId (pd.allocations.map (·.invoiceId)) ledger)
    pd.allocations, hne, ?_⟩
  simp only [allocatePayment]
  rw [if_neg (by simp [hlen]), if_pos hne]

/-- Witness for C6: allocating 150.00 against invoice 1 of `ledgerA`, whose
outstanding balance is 100.00, is rejected with a conflict error. -/
theorem allocate_conflict_rejected_witness :
    ∃ msgs, msgs ≠ [] ∧
      allocatePayment 1 1 exceedingRequest ledgerA = .error (.conflict msgs) :=
  allocate_conflict_rejected 1 1 exceedingRequest ledgerA ⟨1, 15000⟩ invA
    (by decide) (by decide) (by decide) (by decide)

theorem autoWalk_sum {orgId userId : Nat} {paymentDate : Day}
    {paymentMethod : String} {referenceNumber notes : Option String}
    {remaining : Money} {invs : List Invoice} {ps : List Payment}
    {ds : List AutoAllocationDetail} {bumps : List (Nat × Money)}
    {rem : Money}
    (h : autoWalk orgId userId paymentDate paymentMethod referenceNumber notes
        remaining invs = (ps, ds, bumps, rem)) :
    (ps.map (·.amount)).sum + rem = remaining := by
  induction invs generalizing remaining ps ds bumps rem with
  | nil =>
    simp only [autoWalk, Prod.mk.injEq] at h
    obtain ⟨rfl, -, -, rfl⟩ := h
    simp
  | cons inv rest ih =>
    simp only [autoWalk] at h
    split at h
    · simp only [Prod.mk.injEq] at h
      obtain ⟨rfl, -, -, rfl⟩ := h
      simp
    · cases hrec : autoWalk orgId userId paymentDate paymentMethod
          referenceNumber notes
          (remaining - min remaining (inv.totalAmount - inv.paidAmount))
          rest with
      | mk ps' tail =>
        obtain ⟨ds', bumps', rem'⟩ := tail
        rw [hrec] at h
        simp only [Prod.mk.injEq] at h
        obtain ⟨rfl, -, -, rfl⟩ := h
        have := ih hrec
        simp only [List.map_cons, List.sum_cons]
        linarith [this]

theorem autoWalk_rem_nonneg {orgId userId : Nat} {paymentDate : Day}
    {paymentMethod : String} {referenceNumber notes : Option String}
    {remaining : Money} {invs : List Invoice} {ps : List Payment}
    {ds : List AutoAllocationDetail} {bumps : List (Nat × Money)}
    {rem : Money}
    (h : autoWalk orgId userId paymentDate paymentMethod referenceNumber notes
        remaining invs = (ps, ds, bumps, rem))
    (hr : 0 ≤ remaining) : 0 ≤ rem := by
  induction invs generalizing remaining ps ds bumps rem with
  | nil =>
    simp only [autoWalk, Prod.mk.injEq] at h
    obtain ⟨-, -, -, rfl⟩ := h
    exact hr
  | cons inv rest ih =>
    simp only [autoWalk] at h
    split at h
    · simp only [Prod.mk.injEq] at h
      obtain ⟨-, -, -, rfl⟩ := h
      exact hr
    · cases hrec : autoWalk orgId userId paymentDate paymentMethod
          referenceNumber notes
          (remaining - min remaining (inv.totalAmount - inv.paidAmount))
          rest with
      | mk ps' tail =>
        obtain ⟨ds', bumps', rem'⟩ := tail
        rw [hrec] at h
        simp only [Prod.mk.injEq] at h
        obtain ⟨-, -, -, rfl⟩ := h
        refine ih hrec ?_
        linarith [min_le_left remaining (inv.totalAmount - inv.paidAmount)]

theorem autoWalk_invoiceId_isSome {orgId userId : Nat} {paymentDate : Day}
    {paymentMethod : String} {referenceNumber notes : Option String}
    {remaining : Money} {invs : List Invoice} {ps : List Payment}
    {ds : List AutoAllocationDetail} {bumps : List (Nat × Money)}
    {rem : Money}
    (h : autoWalk orgId userId paymentDate paymentMethod referenceNumber notes
        remaining invs = (ps, ds, bumps, rem)) :
    ∀ p ∈ ps, p.invoiceId.isSome := by
  induction invs generalizing remaining ps ds bumps rem with
  | nil =>
    simp only [autoWalk, Prod.mk.injEq] at h
    obtain ⟨rfl, -, -, -⟩ := h
    simp
  | cons inv rest ih =>
    simp only [autoWalk] at h
    split at h
    · simp only [Prod.mk.injEq] at h
      obtain ⟨rfl, -, -, -⟩ := h
      simp
    · cases hrec : autoWalk orgId userId paymentDate paymentMethod
          referenceNumber notes
          (remaining - min remaining (inv.totalAmount - inv.paidAmount))
          rest with
      | mk ps' tail =>
        obtain ⟨ds', bumps', rem'⟩ := tail
        rw [hrec] at h
        simp only [Prod.mk.injEq] at h
        obtain ⟨rfl, -, -, -⟩ := h
        intro p hp
        rcases List.mem_cons.mp hp with rfl | hmem
        · simp
        · exact ih hrec p hmem

/-- C2: for every successful `auto_allocate_payment` call with a
non-negative payment amount P (the exposed route requires P > 0), the sum of
the amounts of all Payment rows it creates equals P exactly, and at most one
of those rows — the trailing overpayment credit, present only when funds
remain — carries a null invoice reference. -/
theorem auto_allocate_conservation (orgId userId : Nat) (P : Money)
    (paymentMethod : String) (paymentDate : Day)
    (referenceNumber notes : Option String) (cust : Option Nat)
    (ledger l' : Ledger) (ps : List Payment) (ds : List AutoAllocationDetail)
    (hP : 0 ≤ P)
    (h : autoAllocatePayment orgId userId P paymentMethod paymentDate
        referenceNumber notes cust ledger = .ok (l', ps, ds)) :
    (ps.map (·.amount)).sum = P ∧
      ps.countP (fun p => p.invoiceId.isNone) ≤ 1 := by
  simp only [autoAllocatePayment] at h
  split at h
  · cases h
  · cases hw : autoWalk orgId userId paymentDate paymentMethod
        referenceNumber notes P
        (getOutstandingInvoices orgId cust ledger) with
    | mk ps0 tail =>
      obtain ⟨ds0, bumps0, rem⟩ := tail
      rw [hw] at h
      dsimp only at h
      have hsum := autoWalk_sum hw
      have hsome := autoWalk_invoiceId_isSome hw
      have hzero : (ps0.countP (fun p => p.invoiceId.isNone)) = 0 := by
        rw [List.countP_eq_zero]
        intro p hp
        have hs := hsome p hp
        cases hpid : p.invoiceId with
        | none => rw [hpid] at hs; cases hs
        | some i => simp [hpid]
      by_cases hpos : (0 : Money) < rem
      · rw [if_pos hpos] at h
        simp only [Except.ok.injEq, Prod.mk.injEq] at h
        obtain ⟨-, rfl, -⟩ := h
        constructor
        · simp only [List.map_append, List.sum_append, List.map_cons,
            List.sum_cons, List.map_nil, List.sum_nil]
          linarith [hsum]
        · rw [List.countP_append, hzero]
          simp
      · rw [if_neg hpos] at h
        simp only [Except.ok.injEq, Prod.mk.injEq] at h
        obtain ⟨-, rfl, -⟩ := h
        have hrem : rem = 0 := by
          have h1 := autoWalk_rem_nonneg hw hP
          have h2 := not_lt.mp hpos
          linarith
        constructor
        · linarith [hsum]
        · rw [hzero]
          simp

/-- Witness for C2 at the spec's overpayment example: 250.00 against the two
100.00 invoices of `ledgerAB` creates rows summing to exactly 250.00, with a
single null-invoice credit row. -/
theorem auto_allocate_conservation_witness :
    ((okPayments (autoAllocatePayment 1 1 25000 "cash" 40 none none none
        ledgerAB)).map (·.amount)).sum = 25000 ∧
    (okPayments (autoAllocatePayment 1 1 25000 "cash" 40 none none none
        ledgerAB)).countP (fun p => p.invoiceId.isNone) ≤ 1 := by
  have h : autoAllocatePayment 1 1 25000 "cash" 40 none none none ledgerAB
      = .ok (okLedger (autoAllocatePayment 1 1 25000 "cash" 40 none none none
          ledgerAB),
        okPayments (autoAllocatePayment 1 1 25000 "cash" 40 none none none
          ledgerAB),
        okAutoDetails (autoAllocatePayment 1 1 25000 "cash" 40 none none none
          ledgerAB)) := by decide
  exact auto_allocate_conservation 1 1 25000 "cash" 40 none none none
    ledgerAB _ _ _ (by decide) h

theorem autoWalk_details_spec {orgId userId : Nat} {paymentDate : Day}
    {paymentMethod : String} {referenceNumber notes : Option String}
    {remaining : Money} {invs : List Invoice} {ps : List Payment}
    {ds : List AutoAllocationDetail} {bumps : List (Nat × Money)}
    {rem : Money}
    (h : autoWalk orgId userId paymentDate paymentMethod referenceNumber notes
        remaining invs = (ps, ds, bumps, rem)) :
    ds.filterMap (fun d => d.invoiceId.map (fun i => (i, d.allocatedAmount)))
      = specGreedyWalk remaining
          (invs.map (fun inv => (inv.id, inv.totalAmount - inv.paidAmount))) := by
  induction invs generalizing remaining ps ds bumps rem with
  | nil =>
    simp only [autoWalk, Prod.mk.injEq] at h
    obtain ⟨-, rfl, -, -⟩ := h
    simp [specGreedyWalk]
  | cons inv rest ih =>
    simp only [autoWalk] at h
    split at h
    · simp only [Prod.mk.injEq] at h
      obtain ⟨-, rfl, -, -⟩ := h
      rw [List.map_cons]
      simp only [specGreedyWalk]
      rw [if_pos (by assumption)]
      simp
    · cases hrec : autoWalk orgId userId paymentDate paymentMethod
          referenceNumber notes
          (remaining - min remaining (inv.totalAmount - inv.paidAmount))
          rest with
      | mk ps' tail =>
        obtain ⟨ds', bumps', rem'⟩ := tail
        rw [hrec] at h
        simp only [Prod.mk.injEq] at h
        obtain ⟨-, rfl, -, -⟩ := h
        rw [List.map_cons]
        simp only [specGreedyWalk]
        rw [if_neg (by assumption)]
        simp only [List.filterMap_cons]
        rw [ih hrec]
        rfl

/-- C8: greedy oldest-due-first walk.  First, the spec's concrete FIFO
example: with exactly invoices A (due day 0, outstanding 100.00) and B (due
day 31, outstanding 100.00), auto-allocating 150.00 fully settles A
(100.00), partially settles B (50.00), and creates no credit payment.
Second, in general the (invoice id, allocated amount) pairs of a successful
call's allocation details are exactly the spec-worded greedy walk —
allocating min(remaining, outstanding) to each outstanding invoice in
due-date order until the amount is exhausted — over the ordered outstanding
invoices of the snapshot. -/
theorem auto_allocate_greedy_fifo :
    (isOk fifoResult = true ∧
      (okPayments fifoResult).map (fun p => (p.invoiceId, p.amount))
        = [(some 1, 10000), (some 2, 5000)] ∧
      (okLedger fifoResult).invoices.map
          (fun inv => (inv.id, inv.paidAmount, inv.totalAmount))
        = [(1, 10000, 10000), (2, 5000, 10000)] ∧
      (okPayments fifoResult).countP (fun p => p.invoiceId.isNone) = 0) ∧
    (∀ (orgId userId : Nat) (P : Money) (paymentMethod : String)
      (paymentDate : Day) (referenceNumber notes : Option String)
      (cust : Option Nat) (ledger l' : Ledger) (ps : List Payment)
      (ds : List AutoAllocationDetail),
      autoAllocatePayment orgId userId P paymentMethod paymentDate
          referenceNumber notes cust ledger = .ok (l', ps, ds) →
      ds.filterMap (fun d => d.invoiceId.map (fun i => (i, d.allocatedAmount)))
        = specGreedyWalk P ((getOutstandingInvoices orgId cust ledger).map
            (fun inv => (inv.id, inv.totalAmount - inv.paidAmount)))) := by
  constructor
  · exact ⟨by decide, by decide, by decide, by decide⟩
  · intro orgId userId P paymentMethod paymentDate referenceNumber notes cust
      ledger l' ps ds h
    simp only [autoAllocatePayment] at h
    split at h
    · cases h
    · cases hw : autoWalk orgId userId paymentDate paymentMethod
          referenceNumber notes P
          (getOutstandingInvoices orgId cust ledger) with
      | mk ps0 tail =>
        obtain ⟨ds0, bumps0, rem⟩ := tail
        rw [hw] at h
        dsimp only at h
        have hspec := autoWalk_details_spec hw
        by_cases hpos : (0 : Money) < rem
        · rw [if_pos hpos] at h
          simp only [Except.ok.injEq, Prod.mk.injEq] at h
          obtain ⟨-, -, rfl⟩ := h
          rw [List.filterMap_append, hspec]
          simp
        · rw [if_neg hpos] at h
          simp only [Except.ok.injEq, Prod.mk.injEq] at h
          obtain ⟨-, -, rfl⟩ := h
          exact hspec

/-- Witness for C8: the general greedy-walk equivalence applied to the
concrete FIFO scenario. -/
theorem auto_allocate_greedy_fifo_witness :
    (okAutoDetails fifoResult).filterMap
        (fun d => d.invoiceId.map (fun i => (i, d.allocatedAmount)))
      = specGreedyWalk 15000 ((getOutstandingInvoices 1 none ledgerAB).map
          (fun inv => (inv.id, inv.totalAmount - inv.paidAmount))) := by
  have h : autoAllocatePayment 1 1 15000 "cash" 40 none none none ledgerAB
      = .ok (okLedger fifoResult, okPayments fifoResult,
          okAutoDetails fifoResult) := by decide
  exact auto_allocate_greedy_fifo.2 1 1 15000 "cash" 40 none none none
    ledgerAB _ _ _ h

theorem bumpPaid_mem_of_ne (invId : Nat) (amt : Money) {invs : List Invoice}
    {inv : Invoice} (h : inv ∈ invs) (hne : inv.id ≠ invId) :
    inv ∈ bumpPaid invId amt invs := by
  unfold bumpPaid
  refine List.mem_map.mpr ⟨inv, h, ?_⟩
  simp [hne]

theorem applyBumps_mem {bumps : List (Nat × Money)} {invs : List Invoice}
    {inv : Invoice} (h : inv ∈ invs) (hne : ∀ b ∈ bumps, inv.id ≠ b.1) :
    inv ∈ applyBumps bumps invs := by
  induction bumps generalizing invs with
  | nil => simpa [applyBumps] using h
  | cons b rest ih =>
    show inv ∈ applyBumps rest (bumpPaid b.1 b.2 invs)
    exact ih (bumpPaid_mem_of_ne b.1 b.2 h (hne b (by simp)))
      (fun b' hb' => hne b' (by simp [hb']))

theorem processAdditional_mem {orgId userId : Nat}
    {pd : PaymentAllocationCreate} {fetched : List Invoice}
    {allocs : List PaymentAllocation} {invs invs' : List Invoice}
    {ps : List Payment} {ds : List AllocationDetail}
    (h : processAdditional orgId userId pd fetched allocs invs
        = .ok (invs', ps, ds))
    {inv0 : Invoice} (h0 : inv0 ∈ invs)
    (hne : ∀ f ∈ fetched, inv0.id ≠ f.id) : inv0 ∈ invs' := by
  induction allocs generalizing invs invs' ps ds with
  | nil =>
    simp only [processAdditional, Except.ok.injEq, Prod.mk.injEq] at h
    obtain ⟨rfl, -, -⟩ := h
    exact h0
  | cons a rest ih =>
    simp only [processAdditional] at h
    cases hfind : fetched.find? (fun inv => inv.id == a.invoiceId) with
    | none => simp [hfind] at h
    | some inv =>
      rw [hfind] at h
      dsimp only at h
      cases hrec : processAdditional orgId userId pd fetched rest
          (bumpPaid inv.id a.allocatedAmount invs) with
      | error e => rw [hrec] at h; cases h
      | ok triple =>
        obtain ⟨invs'', ps'', ds''⟩ := triple
        rw [hrec] at h
        simp only [Except.ok.injEq, Prod.mk.injEq] at h
        obtain ⟨rfl, -, -⟩ := h
        exact ih hrec
          (bumpPaid_mem_of_ne inv.id a.allocatedAmount h0
            (hne inv (List.mem_of_find?_eq_some hfind)))

theorem autoWalk_bumps_mem {orgId userId : Nat} {paymentDate : Day}
    {paymentMethod : String} {referenceNumber notes : Option String}
    {remaining : Money} {invs : List Invoice} {ps : List Payment}
    {ds : List AutoAllocationDetail} {bumps : List (Nat × Money)}
    {rem : Money}
    (h : autoWalk orgId userId paymentDate paymentMethod referenceNumber notes
        remaining invs = (ps, ds, bumps, rem)) :
    ∀ b ∈ bumps, ∃ inv ∈ invs, b.1 = inv.id := by
  induction invs generalizing remaining ps ds bumps rem with
  | nil =>
    simp only [autoWalk, Prod.mk.injEq] at h
    obtain ⟨-, -, rfl, -⟩ := h
    simp
  | cons inv rest ih =>
    simp only [autoWalk] at h
    split at h
    · simp only [Prod.mk.injEq] at h
      obtain ⟨-, -, rfl, -⟩ := h
      simp
    · cases hrec : autoWalk orgId userId paymentDate paymentMethod
          referenceNumber notes
          (remaining - min remaining (inv.totalAmount - inv.paidAmount))
          rest with
      | mk ps' tail =>
        obtain ⟨ds', bumps', rem'⟩ := tail
        rw [hrec] at h
        simp only [Prod.mk.injEq] at h
        obtain ⟨-, -, rfl, -⟩ := h
        intro b hb
        rcases List.mem_cons.mp hb with rfl | hmem
        · exact ⟨inv, by simp⟩
        · obtain ⟨i, hi, hbi⟩ := ih hrec b hmem
          exact ⟨i, by simp [hi], hbi⟩

theorem ledger_id_inj {ledger : Ledger}
    (hWF : (ledger.invoices.map (·.id)).Nodup) {x y : Invoice}
    (hx : x ∈ ledger.invoices) (hy : y ∈ ledger.invoices)
    (hid : x.id = y.id) : x = y :=
  List.inj_on_of_nodup_map hWF hx hy hid

/-- C9: tenant isolation.  (1)–(3): the invoice selections of the allocation
service (`_get_invoices`, `_get_outstanding_invoices`) and of the aging
service (`_get_outstanding_invoices`) only ever return invoices of the
requesting organization.  (4)–(5): a successful `allocate_payment` or
`auto_allocate_payment` call scoped to one organization leaves every other
organization's invoice row unchanged (invoice ids are primary keys, hence
`Nodup`).  (6): an `allocate_payment` request referencing an invoice id that
the requesting organization does not own fails with the not-found error —
and, returning an error, commits nothing. -/
theorem tenant_isolation :
    (∀ (orgId : Nat) (ids : List Nat) (ledger : Ledger) (inv : Invoice),
      inv ∈ getInvoices orgId ids ledger → inv.organizationId = orgId) ∧
    (∀ (orgId : Nat) (cust : Option Nat) (ledger : Ledger) (inv : Invoice),
      inv ∈ getOutstandingInvoices orgId cust ledger →
        inv.organizationId = orgId) ∧
    (∀ (orgId : Nat) (cust : Option Nat) (ip : Bool) (ledger : Ledger)
      (inv : Invoice),
      inv ∈ agingOutstandingInvoices orgId cust ip ledger →
        inv.organizationId = orgId) ∧
    (∀ (orgId userId : Nat) (pd : PaymentAllocationCreate)
      (ledger l' : Ledger) (p : Payment) (ds : List AllocationDetail),
      (ledger.invoices.map (·.id)).Nodup →
      allocatePayment orgId userId pd ledger = .ok (l', p, ds) →
      ∀ inv0 ∈ ledger.invoices, inv0.organizationId ≠ orgId →
        inv0 ∈ l'.invoices) ∧
    (∀ (orgId userId : Nat) (P : Money) (paymentMethod : String)
      (paymentDate : Day) (referenceNumber notes : Option String)
      (cust : Option Nat) (ledger l' : Ledger) (ps : List Payment)
      (ds : List AutoAllocationDetail),
      (ledger.invoices.map (·.id)).Nodup →
      autoAllocatePayment orgId userId P paymentMethod paymentDate
          referenceNumber notes cust ledger = .ok (l', ps, ds) →
      ∀ inv0 ∈ ledger.invoices, inv0.organizationId ≠ orgId →
        inv0 ∈ l'.invoices) ∧
    (∀ (orgId userId : Nat) (pd : PaymentAllocationCreate) (ledger : Ledger)
      (a : PaymentAllocation),
      (ledger.invoices.map (·.id)).Nodup →
      a ∈ pd.allocations →
      (∀ inv ∈ ledger.invoices,
        inv.organizationId = orgId → inv.id ≠ a.invoiceId) →
      allocatePayment orgId userId pd ledger = .error .notFound) := by
  refine ⟨?_, ?_, ?_, ?_, ?_, ?_⟩
  · intro orgId ids ledger inv h
    exact (mem_getInvoices h).1
  · intro orgId cust ledger inv h
    exact (mem_getOutstandingInvoices h).1
  · intro orgId cust ip ledger inv h
    exact (mem_agingOutstandingInvoices h).1
  · intro orgId userId pd ledger l' p ds hWF h inv0 h0 horg
    have hneAll : ∀ f ∈ getInvoices orgId (pd.allocations.map (·.invoiceId))
        ledger, inv0.id ≠ f.id := by
      intro f hf hid
      obtain ⟨hforg, hfmem, -⟩ := mem_getInvoices hf
      exact horg (ledger_id_inj hWF h0 hfmem hid ▸ hforg)
    simp only [allocatePayment] at h
    split at h
    · cases h
    · split at h
      · cases h
      · split at h
        case _ primaryInvoice restInv primaryAllocation restAllocations
            heqInv heqAlloc =>
          cases hrec : processAdditional orgId userId pd
              (getInvoices orgId (pd.allocations.map (·.invoiceId)) ledger)
              restAllocations
              (bumpPaid primaryInvoice.id primaryAllocation.allocatedAmount
                ledger.invoices) with
          | error e => rw [hrec] at h; cases h
          | ok triple =>
            obtain ⟨finalInvoices, additionalPayments, additionalDetails⟩ :=
              triple
            rw [hrec] at h
            simp only [Except.ok.injEq, Prod.mk.injEq] at h
            obtain ⟨hl, -, -⟩ := h
            have hprim : primaryInvoice ∈ getInvoices orgId
                (pd.allocations.map (·.invoiceId)) ledger := by
              rw [heqInv]; simp
            have hstep := bumpPaid_mem_of_ne primaryInvoice.id
              primaryAllocation.allocatedAmount h0
              (hneAll primaryInvoice hprim)
            have hfin := processAdditional_mem hrec hstep hneAll
            rw [← hl]
            exact hfin
        · cases h
  · intro orgId userId P paymentMethod paymentDate referenceNumber notes cust
      ledger l' ps ds hWF h inv0 h0 horg
    simp only [autoAllocatePayment] at h
    split at h
    · cases h
    · cases hw : autoWalk orgId userId paymentDate paymentMethod
          referenceNumber notes P
          (getOutstandingInvoices orgId cust ledger) with
      | mk ps0 tail =>
        obtain ⟨ds0, bumps0, rem⟩ := tail
        rw [hw] at h
        dsimp only at h
        have hbumps := autoWalk_bumps_mem hw
        have hne : ∀ b ∈ bumps0, inv0.id ≠ b.1 := by
          intro b hb hid
          obtain ⟨i, hi, hbi⟩ := hbumps b hb
          obtain ⟨hiorg, himem⟩ := mem_getOutstandingInvoices hi
          exact horg
            (ledger_id_inj hWF h0 himem (by rw [hid, hbi]) ▸ hiorg)
        have hmem := applyBumps_mem h0 hne
        by_cases hpos : (0 : Money) < rem
        · rw [if_pos hpos] at h
          simp only [Except.ok.injEq, Prod.mk.injEq] at h
          obtain ⟨hl, -, -⟩ := h
          rw [← hl]
          exact hmem
        · rw [if_neg hpos] at h
          simp only [Except.ok.injEq, Prod.mk.injEq] at h
          obtain ⟨hl, -, -⟩ := h
          rw [← hl]
          exact hmem
  · intro orgId userId pd ledger a hWF ha hforeign
    have hmemid : a.invoiceId ∈ pd.allocations.map (·.invoiceId) :=
      List.mem_map_of_mem _ ha
    have hlt : (getInvoices orgId (pd.allocations.map (·.invoiceId))
        ledger).length < (pd.allocations.map (·.invoiceId)).length := by
      set ids := pd.allocations.map (·.invoiceId) with hids
      set fetched := getInvoices orgId ids ledger with hfetched
      have hnodup : (fetched.map (·.id)).Nodup := by
        have hsub : fetched.Sublist ledger.invoices :=
          List.filter_sublist ledger.invoices
        exact hWF.sublist (hsub.map (·.id))
      have hsubset : fetched.map (·.id) ⊆ ids.erase a.invoiceId := by
        intro x hx
        obtain ⟨f, hf, rfl⟩ := List.mem_map.mp hx
        obtain ⟨hforg, hfmem, hfid⟩ := mem_getInvoices hf
        have hne : f.id ≠ a.invoiceId := hforeign f hfmem hforg
        exact (List.mem_erase_of_ne hne).mpr hfid
      have hlen : (fetched.map (·.id)).length ≤
          (ids.erase a.invoiceId).length :=
        (hnodup.subperm hsubset).length_le
      rw [List.length_map] at hlen
      rw [List.length_erase_of_mem hmemid] at hlen
      have hpos : 0 < ids.length := List.length_pos.mpr
        (List.ne_nil_of_mem hmemid)
      omega
    simp only [allocatePayment]
    rw [if_pos (by omega)]

/-- Witness for C9: organization 2 requesting an allocation against
organization 1's invoice id 1 in `ledgerAB` gets the not-found error, and
invoice A of organization 1 is only ever returned to callers scoped to
organization 1. -/
theorem tenant_isolation_witness :
    allocatePayment 2 1 crossTenantRequest ledgerAB = .error .notFound ∧
    invA.organizationId = 1 := by
  constructor
  · exact tenant_isolation.2.2.2.2.2 2 1 crossTenantRequest ledgerAB
      ⟨1, 5000⟩ (by decide) (by decide) (by decide)
  · exact tenant_isolation.1 1 [1] ledgerA invA (by decide)

end Arvalox
